import Mathlib

/-!
# KCLinkPRO board controller

A shallow embedding of `Library/KCLinkPRO.h` (header and implementation of the
`KCLinkPRO` class) and the properties of its relay, input, analog and sensor
operations.

Modelling conventions

* `int` arguments are `Int`; `byte` values are `Nat`, reduced `% 256` wherever
  the source stores into a `byte`.
* `float` values are exact rationals (`ℚ`); NaN readings of a sensor driver are
  outside the model.
* Every call into a collaborator (I2C expanders, ADC, sensor drivers, `Serial`,
  `new`/`delete`, user callbacks) is recorded, in program order, as an `Event`.
  Values that a collaborator returns are supplied by a `Hardware` record.
* A function pointer is `Option Nat`: `none` is `nullptr`, `some f` is the
  address of a user function.  Invoking it is recorded as an event; the user
  function is assumed not to call back into the controller.
* Fixed-size member arrays are total maps `Nat → α`; every access in the
  source is guarded by the range check of the enclosing method.
-/

namespace KCLink

/-! ## Collaborator vocabulary -/

/-- Logic level handed to `digitalWrite`. -/
inductive Level
  | LOW
  | HIGH
  deriving DecidableEq, Repr

/-- Sensor types (`enum SensorType`). -/
inductive SensorType
  | SENSOR_NONE
  | SENSOR_DS18B20
  | SENSOR_DHT11
  | SENSOR_DHT22
  | SENSOR_DHT21
  deriving DecidableEq, Repr

/-- The three sub-type constants of `DHT.h` used by `beginTemperatureSensor`;
their numeric values are not needed. -/
inductive DhtKind
  | DHT11
  | DHT22
  | DHT21
  deriving DecidableEq, Repr

/-- Pin of analog input 1 (`BOARD_VERSION_1_4` is defined). -/
def ANALOG_INPUT_1 : Int := 34
/-- Pin of analog input 2. -/
def ANALOG_INPUT_2 : Int := 35
/-- Pin of sensor slot 1. -/
def TEMP_SENSOR_1 : Int := 14
/-- Pin of sensor slot 2. -/
def TEMP_SENSOR_2 : Int := 13
/-- Pin of sensor slot 3. -/
def TEMP_SENSOR_3 : Int := 32
/-- Pin of sensor slot 4. -/
def TEMP_SENSOR_4 : Int := 33

/-- One call into a collaborator, as issued by the controller. -/
inductive Event
  | wireBegin
  | serialPrintln (msg : String)
  | relayModuleBegin
  | relayPinModeOutput (pin : Int)
  | relayDigitalWrite (pin : Int) (level : Level)
  | inputModuleBegin
  | inputPinModeInput (pin : Int)
  | inputRead8
  | inputDigitalRead (pin : Int)
  | analogReadResolution (bits : Nat)
  | analogRead (pin : Int)
  | inputChangeCallback (fn : Nat) (inputNumber : Int) (newState : Bool)
  | analogThresholdCallback (fn : Nat) (inputNumber : Int) (value : ℚ)
  | deleteOneWire (pin : Int)
  | deleteDallasTemperature (pin : Int)
  | deleteDHT (pin : Int) (kind : DhtKind)
  | newOneWire (pin : Int)
  | newDallasTemperature (pin : Int)
  | dallasBegin (pin : Int)
  | newDHT (pin : Int) (kind : DhtKind)
  | dhtBegin (pin : Int)
  | dallasRequestTemperatures (pin : Int)
  | dallasGetTempCByIndex (pin : Int) (index : Nat)
  | dhtReadTemperature (pin : Int)
  | dhtReadHumidity (pin : Int)
  deriving DecidableEq

/-- Values returned by the collaborators during one call of a method. -/
structure Hardware where
  /-- result of `_relayModule.begin()` -/
  relayBeginOk : Bool
  /-- result of `_inputModule.begin()` -/
  inputBeginOk : Bool
  /-- result of `_inputModule.read8()` -/
  read8 : Nat
  /-- result of `_inputModule.digitalRead(pin)` -/
  digitalRead : Int → Bool
  /-- result of `analogRead(pin)` -/
  analogRead : Int → Int
  /-- result of `getTempCByIndex(0)` of the Dallas driver on a pin -/
  tempCByIndex : Int → ℚ
  /-- result of `readTemperature()` of the DHT driver on a pin -/
  dhtTemperature : Int → ℚ
  /-- result of `readHumidity()` of the DHT driver on a pin -/
  dhtHumidity : Int → ℚ

/-! ## Arduino bit macros -/

/-- Modelled from the spec: the Arduino core macro bitRead, absent from src/
(it comes from Arduino.h): `(((value) >> (bit)) & 0x01)`, used as a `bool`.
The spec: getRelayState "reads the shadow bitmask", bit n-1. -/
def bitRead (value bit : Nat) : Bool := ((value >>> bit) &&& 1) != 0

/-- Modelled from the spec: the Arduino core macro bitSet, absent from src/:
`((value) |= (1UL << (bit)))`, stored back into a `byte`.
The spec: setRelay "updates the shadow bitmask bit n-1". -/
def bitSet (value bit : Nat) : Nat := (value ||| (1 <<< bit)) % 256

/-- Modelled from the spec: the Arduino core macro bitClear, absent from src/:
`((value) &= ~(1UL << (bit)))`, stored back into a `byte`; the complement of a
32-bit unsigned value is its exclusive-or with `0xFFFFFFFF`. -/
def bitClear (value bit : Nat) : Nat := (value &&& (0xFFFFFFFF ^^^ (1 <<< bit))) % 256

/-- The loop `for (int i = 0; i < n; i++) body`, threading the loop-carried
state. -/
def forLoop {σ : Type} (n : Nat) (body : Nat → σ → σ) (s : σ) : σ :=
  (List.range n).foldl (fun acc i => body i acc) s

/-! ## Controller state -/

/-- The data members of `class KCLinkPRO`.  A driver pointer is `none`
(`nullptr`) or `some` of the constructor arguments of the object it points
to. -/
structure KCLinkPRO where
  _relayState : Nat
  _lastInputState : Nat
  _analogThresholds : Nat → ℚ
  _analogThresholdExceeded : Nat → Bool
  _analogCallbacks : Nat → Option Nat
  _oneWireObjects : Nat → Option Int
  _dsTemperatureSensors : Nat → Option Int
  _dhtSensors : Nat → Option (Int × DhtKind)
  _sensorTypes : Nat → SensorType
  _inputChangeCallback : Option Nat

/-- The constructor `KCLinkPRO::KCLinkPRO()`. -/
def KCLinkPRO.new : KCLinkPRO where
  _relayState := 0
  _lastInputState := 0
  _inputChangeCallback := none
  _analogThresholds := fun _ => 0
  _analogThresholdExceeded := fun _ => false
  _analogCallbacks := fun _ => none
  _oneWireObjects := fun _ => none
  _dsTemperatureSensors := fun _ => none
  _dhtSensors := fun _ => none
  _sensorTypes := fun _ => SensorType.SENSOR_NONE

/-! ## Initialisation and relay control -/

/-- The method `KCLinkPRO::begin`. -/
def KCLinkPRO.begin (k : KCLinkPRO) (hw : Hardware) : Bool × KCLinkPRO × List Event :=
  let ev0 := [Event.wireBegin, Event.relayModuleBegin]
  if !hw.relayBeginOk then
    (false, k, ev0 ++ [Event.serialPrintln ("Error: Relay module not found!")])
  else
    let ev1 := forLoop 8 (fun i ev =>
      ev ++ [Event.relayPinModeOutput i, Event.relayDigitalWrite i Level.HIGH]) ev0
    let ev2 := ev1 ++ [Event.inputModuleBegin]
    if !hw.inputBeginOk then
      (false, k, ev2 ++ [Event.serialPrintln ("Error: Input module not found!")])
    else
      let ev3 := forLoop 8 (fun i ev => ev ++ [Event.inputPinModeInput i]) ev2
      (true, { k with _lastInputState := hw.read8 % 256 },
        ev3 ++ [Event.inputRead8, Event.analogReadResolution 12])

/-- The method `KCLinkPRO::setRelay`. -/
def KCLinkPRO.setRelay (k : KCLinkPRO) (relayNumber : Int) (state : Bool) :
    Bool × KCLinkPRO × List Event :=
  if relayNumber < 1 ∨ relayNumber > 8 then
    (false, k, [])
  else
    let relayIndex : Int := relayNumber - 1
    if state then
      (true, { k with _relayState := bitSet k._relayState relayIndex.toNat },
        [Event.relayDigitalWrite relayIndex Level.LOW])
    else
      (true, { k with _relayState := bitClear k._relayState relayIndex.toNat },
        [Event.relayDigitalWrite relayIndex Level.HIGH])

/-- The method `KCLinkPRO::toggleRelay`. -/
def KCLinkPRO.toggleRelay (k : KCLinkPRO) (relayNumber : Int) :
    Bool × KCLinkPRO × List Event :=
  if relayNumber < 1 ∨ relayNumber > 8 then
    (false, k, [])
  else
    let relayIndex : Int := relayNumber - 1
    let currentState := bitRead k._relayState relayIndex.toNat
    k.setRelay relayNumber (!currentState)

/-- The method `KCLinkPRO::getRelayState`. -/
def KCLinkPRO.getRelayState (k : KCLinkPRO) (relayNumber : Int) : Bool :=
  if relayNumber < 1 ∨ relayNumber > 8 then
    false
  else
    let relayIndex : Int := relayNumber - 1
    bitRead k._relayState relayIndex.toNat

/-- The method `KCLinkPRO::setAllRelays`; the `byte` parameter is the
argument reduced modulo 256. -/
def KCLinkPRO.setAllRelays (k : KCLinkPRO) (relayMask : Nat) :
    Bool × KCLinkPRO × List Event :=
  let mask := relayMask % 256
  let ev := forLoop 8 (fun i ev =>
    let state := bitRead mask i
    ev ++ [Event.relayDigitalWrite i (if state then Level.LOW else Level.HIGH)]) []
  (true, { k with _relayState := mask }, ev)

/-! ## Digital inputs -/

/-- The method `KCLinkPRO::getDigitalInput`. -/
def KCLinkPRO.getDigitalInput (k : KCLinkPRO) (hw : Hardware) (inputNumber : Int) :
    Bool × KCLinkPRO × List Event :=
  if inputNumber < 1 ∨ inputNumber > 8 then
    (false, k, [])
  else
    let inputIndex : Int := inputNumber - 1
    (hw.digitalRead inputIndex, k, [Event.inputDigitalRead inputIndex])

/-- The method `KCLinkPRO::getAllDigitalInputs`. -/
def KCLinkPRO.getAllDigitalInputs (k : KCLinkPRO) (hw : Hardware) :
    Nat × KCLinkPRO × List Event :=
  (hw.read8 % 256, k, [Event.inputRead8])

/-- The method `KCLinkPRO::onInputChange`. -/
def KCLinkPRO.onInputChange (k : KCLinkPRO) (callback : Option Nat) : KCLinkPRO :=
  { k with _inputChangeCallback := callback }

/-- The method `KCLinkPRO::checkInputChanges`. -/
def KCLinkPRO.checkInputChanges (k : KCLinkPRO) (hw : Hardware) : KCLinkPRO × List Event :=
  match k._inputChangeCallback with
  | none => (k, [])
  | some fn =>
    let currentInputState := hw.read8 % 256
    let ev0 := [Event.inputRead8]
    if currentInputState ≠ k._lastInputState then
      let ev1 := forLoop 8 (fun i ev =>
        let currentState := bitRead currentInputState i
        let lastState := bitRead k._lastInputState i
        if currentState ≠ lastState then
          ev ++ [Event.inputChangeCallback fn (i + 1) currentState]
        else ev) ev0
      ({ k with _lastInputState := currentInputState }, ev1)
    else
      (k, ev0)

/-! ## Analog inputs -/

/-- The method `KCLinkPRO::getAnalogInput`. -/
def KCLinkPRO.getAnalogInput (k : KCLinkPRO) (hw : Hardware) (inputNumber : Int) :
    Int × KCLinkPRO × List Event :=
  if inputNumber < 1 ∨ inputNumber > 2 then
    (-1, k, [])
  else
    let pin : Int := if inputNumber = 1 then ANALOG_INPUT_1 else ANALOG_INPUT_2
    (hw.analogRead pin, k, [Event.analogRead pin])

/-- The method `KCLinkPRO::getAnalogVoltage`. -/
def KCLinkPRO.getAnalogVoltage (k : KCLinkPRO) (hw : Hardware) (inputNumber : Int) :
    ℚ × KCLinkPRO × List Event :=
  let r := k.getAnalogInput hw inputNumber
  let rawValue := r.1
  if rawValue < 0 then
    (-1, r.2.1, r.2.2)
  else
    ((rawValue : ℚ) * 5 / 4095, r.2.1, r.2.2)

/-- The method `KCLinkPRO::setAnalogThreshold`. -/
def KCLinkPRO.setAnalogThreshold (k : KCLinkPRO) (inputNumber : Int) (threshold : ℚ)
    (callback : Option Nat) : KCLinkPRO :=
  if inputNumber < 1 ∨ inputNumber > 2 then
    k
  else
    let index : Int := inputNumber - 1
    { k with
      _analogThresholds := Function.update k._analogThresholds index.toNat threshold
      _analogCallbacks := Function.update k._analogCallbacks index.toNat callback
      _analogThresholdExceeded :=
        Function.update k._analogThresholdExceeded index.toNat false }

/-- The body of the loop of `checkAnalogThresholds` for channel index `i`. -/
def KCLinkPRO.checkAnalogThresholdsBody (hw : Hardware) (i : Nat)
    (s : KCLinkPRO × List Event) : KCLinkPRO × List Event :=
  match s.1._analogCallbacks i with
  | none => s
  | some fn =>
    let r := s.1.getAnalogVoltage hw ((i : Int) + 1)
    let voltage := r.1
    let k1 := r.2.1
    let ev1 := s.2 ++ r.2.2
    let exceeded : Bool := decide (voltage ≥ k1._analogThresholds i)
    if exceeded ≠ k1._analogThresholdExceeded i then
      ({ k1 with
          _analogThresholdExceeded := Function.update k1._analogThresholdExceeded i exceeded },
        ev1 ++ [Event.analogThresholdCallback fn ((i : Int) + 1) voltage])
    else
      (k1, ev1)

/-- The method `KCLinkPRO::checkAnalogThresholds`. -/
def KCLinkPRO.checkAnalogThresholds (k : KCLinkPRO) (hw : Hardware) : KCLinkPRO × List Event :=
  forLoop 2 (KCLinkPRO.checkAnalogThresholdsBody hw) (k, [])

/-! ## Temperature and humidity sensors -/

/-- The method `KCLinkPRO::getPinForSensor` (a `switch` on the slot number). -/
def KCLinkPRO.getPinForSensor (sensorNumber : Int) : Int :=
  if sensorNumber = 1 then TEMP_SENSOR_1
  else if sensorNumber = 2 then TEMP_SENSOR_2
  else if sensorNumber = 3 then TEMP_SENSOR_3
  else if sensorNumber = 4 then TEMP_SENSOR_4
  else -1

/-- The DHT branch of `beginTemperatureSensor`: delete the old DHT object of
the slot if there is one, construct and start a new one. -/
def KCLinkPRO.beginDht (k1 : KCLinkPRO) (index : Nat) (pin : Int) (dhtType : DhtKind) :
    Bool × KCLinkPRO × List Event :=
  let ev0 : List Event :=
    match k1._dhtSensors index with
    | some old => [Event.deleteDHT old.1 old.2]
    | none => []
  (true, { k1 with _dhtSensors := Function.update k1._dhtSensors index (some (pin, dhtType)) },
    ev0 ++ [Event.newDHT pin dhtType, Event.dhtBegin pin])

/-- The method `KCLinkPRO::beginTemperatureSensor`. -/
def KCLinkPRO.beginTemperatureSensor (k : KCLinkPRO) (sensorNumber : Int) (type : SensorType) :
    Bool × KCLinkPRO × List Event :=
  if sensorNumber < 1 ∨ sensorNumber > 4 then
    (false, k, [])
  else
    let pin := KCLinkPRO.getPinForSensor sensorNumber
    if pin < 0 then
      (false, k, [])
    else
      let index : Nat := (sensorNumber - 1).toNat
      let k1 := { k with _sensorTypes := Function.update k._sensorTypes index type }
      match type with
      | SensorType.SENSOR_DS18B20 =>
        let ev0 : List Event :=
          match k1._oneWireObjects index with
          | some old => [Event.deleteOneWire old]
          | none => []
        let ev1 : List Event :=
          match k1._dsTemperatureSensors index with
          | some old => ev0 ++ [Event.deleteDallasTemperature old]
          | none => ev0
        (true,
          { k1 with
            _oneWireObjects := Function.update k1._oneWireObjects index (some pin)
            _dsTemperatureSensors := Function.update k1._dsTemperatureSensors index (some pin) },
          ev1 ++ [Event.newOneWire pin, Event.newDallasTemperature pin, Event.dallasBegin pin])
      | SensorType.SENSOR_DHT11 => k1.beginDht index pin DhtKind.DHT11
      | SensorType.SENSOR_DHT22 => k1.beginDht index pin DhtKind.DHT22
      | SensorType.SENSOR_DHT21 => k1.beginDht index pin DhtKind.DHT21
      | SensorType.SENSOR_NONE =>
        (false,
          { k1 with
            _sensorTypes := Function.update k1._sensorTypes index SensorType.SENSOR_NONE },
          [])

/-- The read through the DHT driver shared by the three DHT cases of
`getTemperature`. -/
def KCLinkPRO.readDhtTemperature (k : KCLinkPRO) (hw : Hardware) (index : Nat) :
    ℚ × KCLinkPRO × List Event :=
  match k._dhtSensors index with
  | some d => (hw.dhtTemperature d.1, k, [Event.dhtReadTemperature d.1])
  | none => (-999, k, [])

/-- The method `KCLinkPRO::getTemperature`. -/
def KCLinkPRO.getTemperature (k : KCLinkPRO) (hw : Hardware) (sensorNumber : Int) :
    ℚ × KCLinkPRO × List Event :=
  if sensorNumber < 1 ∨ sensorNumber > 4 then
    (-999, k, [])
  else
    let index : Nat := (sensorNumber - 1).toNat
    if k._sensorTypes index = SensorType.SENSOR_NONE then
      (-999, k, [])
    else
      match k._sensorTypes index with
      | SensorType.SENSOR_DS18B20 =>
        match k._dsTemperatureSensors index with
        | some p =>
          (hw.tempCByIndex p, k,
            [Event.dallasRequestTemperatures p, Event.dallasGetTempCByIndex p 0])
        | none => (-999, k, [])
      | SensorType.SENSOR_DHT11 => k.readDhtTemperature hw index
      | SensorType.SENSOR_DHT22 => k.readDhtTemperature hw index
      | SensorType.SENSOR_DHT21 => k.readDhtTemperature hw index
      | SensorType.SENSOR_NONE => (-999, k, [])

/-- The method `KCLinkPRO::getHumidity`. -/
def KCLinkPRO.getHumidity (k : KCLinkPRO) (hw : Hardware) (sensorNumber : Int) :
    ℚ × KCLinkPRO × List Event :=
  if sensorNumber < 1 ∨ sensorNumber > 4 then
    (-999, k, [])
  else
    let index : Nat := (sensorNumber - 1).toNat
    if k._sensorTypes index ≠ SensorType.SENSOR_DHT11 ∧
        k._sensorTypes index ≠ SensorType.SENSOR_DHT22 ∧
        k._sensorTypes index ≠ SensorType.SENSOR_DHT21 then
      (-999, k, [])
    else
      match k._dhtSensors index with
      | some d => (hw.dhtHumidity d.1, k, [Event.dhtReadHumidity d.1])
      | none => (-999, k, [])

/-! ## Call sequences -/

/-- A call of one of the relay-side methods. -/
inductive RelayCall
  | begin (hw : Hardware)
  | setRelay (relayNumber : Int) (state : Bool)
  | toggleRelay (relayNumber : Int)
  | setAllRelays (relayMask : Nat)

/-- Perform one relay-side call; the result value is dropped. -/
def KCLinkPRO.relayCall (k : KCLinkPRO) : RelayCall → KCLinkPRO × List Event
  | RelayCall.begin hw => (k.begin hw).2
  | RelayCall.setRelay n s => (k.setRelay n s).2
  | RelayCall.toggleRelay n => (k.toggleRelay n).2
  | RelayCall.setAllRelays m => (k.setAllRelays m).2

/-- Perform a sequence of relay-side calls, concatenating the events. -/
def KCLinkPRO.relayCalls (k : KCLinkPRO) : List RelayCall → KCLinkPRO × List Event
  | [] => (k, [])
  | c :: cs =>
    let r := k.relayCall c
    let rs := r.1.relayCalls cs
    (rs.1, r.2 ++ rs.2)

/-- The level most recently written to a relay pin, if any, in a sequence of
events. -/
def lastRelayLevel (pin : Int) (ev : List Event) : Option Level :=
  ev.foldl (fun acc e =>
    match e with
    | Event.relayDigitalWrite p l => if p = pin then some l else acc
    | _ => acc) none

/-- Perform a sequence of `beginTemperatureSensor` calls. -/
def KCLinkPRO.beginSensors (k : KCLinkPRO) : List (Int × SensorType) → KCLinkPRO
  | [] => k
  | c :: cs => KCLinkPRO.beginSensors (k.beginTemperatureSensor c.1 c.2).2.1 cs

/-- Successive `checkInputChanges` polls, one hardware snapshot per poll. -/
def KCLinkPRO.pollInputs (k : KCLinkPRO) : List Hardware → KCLinkPRO × List Event
  | [] => (k, [])
  | hw :: hws =>
    let r := k.checkInputChanges hw
    let rs := KCLinkPRO.pollInputs r.1 hws
    (rs.1, r.2 ++ rs.2)

/-- Successive `checkAnalogThresholds` polls, one hardware snapshot per poll;
the events of each poll are kept apart. -/
def KCLinkPRO.pollAnalog (k : KCLinkPRO) : List Hardware → KCLinkPRO × List (List Event)
  | [] => (k, [])
  | hw :: hws =>
    let r := k.checkAnalogThresholds hw
    let rs := KCLinkPRO.pollAnalog r.1 hws
    (rs.1, r.2 :: rs.2)

/-- The threshold-callback invocations for input number `n` among the events
of one poll, as (function, value) pairs. -/
def thresholdFirings (n : Int) (ev : List Event) : List (Nat × ℚ) :=
  ev.filterMap (fun e =>
    match e with
    | Event.analogThresholdCallback fn m v => if m = n then some (fn, v) else none
    | _ => none)

/-- The input-change callback invocations among the events of one poll, as
(function, input number, new state) triples. -/
def inputFirings (ev : List Event) : List (Nat × Int × Bool) :=
  ev.filterMap (fun e =>
    match e with
    | Event.inputChangeCallback fn m b => some (fn, m, b)
    | _ => none)

/-- A hardware snapshot in which both expanders acknowledge and every read
returns zero, except as overridden by the caller. -/
def Hardware.idle : Hardware where
  relayBeginOk := true
  inputBeginOk := true
  read8 := 0
  digitalRead := fun _ => false
  analogRead := fun _ => 0
  tempCByIndex := fun _ => 0
  dhtTemperature := fun _ => 0
  dhtHumidity := fun _ => 0

/-! ## Observation and specification vocabulary -/

/-- The voltage that `getAnalogVoltage(n)` reports under a hardware snapshot
(the method reads no data member). -/
def observedVoltage (hw : Hardware) (n : Int) : ℚ :=
  (KCLinkPRO.new.getAnalogVoltage hw n).1

/-- The pin that `getAnalogInput(n)` reads for a channel in range. -/
def analogPin (n : Int) : Int := if n = 1 then ANALOG_INPUT_1 else ANALOG_INPUT_2

/-- The voltages `getAnalogVoltage(n)` reports over successive polls. -/
def observedVoltages (n : Int) (hws : List Hardware) : List ℚ :=
  hws.map (fun hw => observedVoltage hw n)

/-- A threshold crossing as the specification words it: poll `j` (counted
from 0) is a crossing when `v_j ≥ t` differs from `v_{j-1} ≥ t`, the state
before the first poll counting as not exceeded. -/
def isCrossing (t : ℚ) (vs : List ℚ) (j : Nat) : Bool :=
  decide (vs.getD j 0 ≥ t) != (if j = 0 then false else decide (vs.getD (j - 1) 0 ≥ t))

/-- A hardware snapshot whose ADC returns the raw code `r` on every pin. -/
def Hardware.adc (r : Int) : Hardware := { Hardware.idle with analogRead := fun _ => r }

/-- The crossings as a latch would compute them, threading the previous
comparison result `prev` through the voltages; related to `isCrossing` by
`crossingFlags_get`. -/
def crossingFlags (t : ℚ) (prev : Bool) : List ℚ → List Bool
  | [] => []
  | v :: vs => (decide (v ≥ t) != prev) :: crossingFlags t (decide (v ≥ t)) vs

/-- The invocations expected from a poll: one call with the voltage of that
poll when it is flagged as a crossing, none otherwise. -/
def expectedFirings (fn : Nat) (flag : Bool) (v : ℚ) : List (Nat × ℚ) :=
  if flag then [(fn, v)] else []

/-- Whether a relay-side call is a `begin`. -/
def RelayCall.isBegin : RelayCall → Bool
  | RelayCall.begin _ => true
  | _ => false

/-- The shadow byte mirrors the output latch of the relay expander with
active-low polarity: for each of the eight pins, the level last written is
LOW when the shadow bit is set and HIGH when it is clear. -/
def RelayMirror (k : KCLinkPRO) (ev : List Event) : Prop :=
  ∀ i : Nat, i < 8 →
    lastRelayLevel (i : Int) ev
      = some (if bitRead k._relayState i then Level.LOW else Level.HIGH)

/-! ## Bit macro lemmas -/

theorem bitRead_eq_testBit (v b : Nat) : bitRead v b = v.testBit b := by
  unfold bitRead Nat.testBit
  rw [Nat.land_comm]

theorem bitRead_mod (v b : Nat) (hb : b < 8) : bitRead (v % 256) b = bitRead v b := by
  rw [bitRead_eq_testBit, bitRead_eq_testBit, show (256 : Nat) = 2 ^ 8 from rfl,
    Nat.testBit_mod_two_pow]
  simp [hb]

theorem bitRead_bitSet (x i j : Nat) (hj : j < 8) :
    bitRead (bitSet x i) j = (decide (i = j) || bitRead x j) := by
  unfold bitSet
  rw [bitRead_mod _ _ hj, bitRead_eq_testBit, bitRead_eq_testBit, Nat.testBit_or,
    Nat.one_shiftLeft, Nat.testBit_two_pow]
  exact Bool.or_comm _ _

theorem bitRead_bitClear (x i j : Nat) (hj : j < 8) :
    bitRead (bitClear x i) j = (!decide (i = j) && bitRead x j) := by
  unfold bitClear
  rw [bitRead_mod _ _ hj, bitRead_eq_testBit, bitRead_eq_testBit, Nat.testBit_and,
    Nat.testBit_xor, Nat.one_shiftLeft, Nat.testBit_two_pow,
    show (0xFFFFFFFF : Nat) = 2 ^ 32 - 1 from rfl, Nat.testBit_two_pow_sub_one]
  have : j < 32 := by omega
  simp [this, Bool.and_comm]

/-- Reading relay `m` in range is reading bit `m - 1` of the shadow byte. -/
theorem getRelayState_in_range (k : KCLinkPRO) (m : Int) (h1 : 1 ≤ m) (h8 : m ≤ 8) :
    k.getRelayState m = bitRead k._relayState (m - 1).toNat := by
  unfold KCLinkPRO.getRelayState
  rw [if_neg (by omega)]

/-! ## Range validation -/

/-- C1: every call with an index outside the 1-based range of its operation
returns the failure sentinel, leaves the whole controller state unchanged and
issues no call to any collaborator: relays and digital inputs outside 1..8,
analog channels outside 1..2, sensor slots outside 1..4. -/
theorem out_of_range_is_noop (k : KCLinkPRO) (hw : Hardware) :
    (∀ n : Int, n < 1 ∨ 8 < n → ∀ s : Bool,
      k.setRelay n s = (false, k, []) ∧
      k.toggleRelay n = (false, k, []) ∧
      k.getRelayState n = false ∧
      k.getDigitalInput hw n = (false, k, [])) ∧
    (∀ n : Int, n < 1 ∨ 2 < n → ∀ (t : ℚ) (cb : Option Nat),
      k.getAnalogInput hw n = (-1, k, []) ∧
      k.getAnalogVoltage hw n = (-1, k, []) ∧
      k.setAnalogThreshold n t cb = k) ∧
    (∀ n : Int, n < 1 ∨ 4 < n → ∀ ty : SensorType,
      k.beginTemperatureSensor n ty = (false, k, []) ∧
      k.getTemperature hw n = (-999, k, []) ∧
      k.getHumidity hw n = (-999, k, [])) := by
  refine ⟨fun n hn s => ?_, fun n hn t cb => ?_, fun n hn ty => ?_⟩
  · have h : n < 1 ∨ n > 8 := hn
    simp [KCLinkPRO.setRelay, KCLinkPRO.toggleRelay, KCLinkPRO.getRelayState,
      KCLinkPRO.getDigitalInput, h]
  · have h : n < 1 ∨ n > 2 := hn
    simp [KCLinkPRO.getAnalogInput, KCLinkPRO.getAnalogVoltage,
      KCLinkPRO.setAnalogThreshold, h]
  · have h : n < 1 ∨ n > 4 := hn
    simp [KCLinkPRO.beginTemperatureSensor, KCLinkPRO.getTemperature,
      KCLinkPRO.getHumidity, h]

/-- Instance of C1 on a fresh controller: relay 0, relay 9, analog channel 3
and sensor slot 5 are all rejected without effect. -/
theorem out_of_range_is_noop_witness :
    (KCLinkPRO.new.setRelay 0 true = (false, KCLinkPRO.new, []) ∧
      KCLinkPRO.new.toggleRelay 0 = (false, KCLinkPRO.new, []) ∧
      KCLinkPRO.new.getRelayState 0 = false ∧
      KCLinkPRO.new.getDigitalInput Hardware.idle 0 = (false, KCLinkPRO.new, [])) ∧
    (KCLinkPRO.new.getAnalogInput Hardware.idle 3 = (-1, KCLinkPRO.new, []) ∧
      KCLinkPRO.new.getAnalogVoltage Hardware.idle 3 = (-1, KCLinkPRO.new, []) ∧
      KCLinkPRO.new.setAnalogThreshold 3 (5 / 2) (some 7) = KCLinkPRO.new) ∧
    (KCLinkPRO.new.beginTemperatureSensor 5 SensorType.SENSOR_DHT22
        = (false, KCLinkPRO.new, []) ∧
      KCLinkPRO.new.getTemperature Hardware.idle 5 = (-999, KCLinkPRO.new, []) ∧
      KCLinkPRO.new.getHumidity Hardware.idle 5 = (-999, KCLinkPRO.new, [])) :=
  ⟨(out_of_range_is_noop KCLinkPRO.new Hardware.idle).1 0 (Or.inl (by decide)) true,
   (out_of_range_is_noop KCLinkPRO.new Hardware.idle).2.1 3 (Or.inr (by decide))
      (5 / 2) (some 7),
   (out_of_range_is_noop KCLinkPRO.new Hardware.idle).2.2 5 (Or.inr (by decide))
      SensorType.SENSOR_DHT22⟩

/-! ## Relay shadow byte -/

/-- C2: for every shadow state, every n in 1..8 and every s, setRelay(n, s)
returns true, afterwards getRelayState(n) is s, and getRelayState(m) is
unchanged for every other m in 1..8. -/
theorem setRelay_then_getRelayState (k : KCLinkPRO) (n : Int) (s : Bool)
    (h1 : 1 ≤ n) (h8 : n ≤ 8) :
    (k.setRelay n s).1 = true ∧
    (k.setRelay n s).2.1.getRelayState n = s ∧
    ∀ m : Int, 1 ≤ m → m ≤ 8 → m ≠ n →
      (k.setRelay n s).2.1.getRelayState m = k.getRelayState m := by
  have hn : ¬ (n < 1 ∨ n > 8) := by omega
  have hread : ∀ m : Int, 1 ≤ m → m ≤ 8 →
      (k.setRelay n s).2.1.getRelayState m
        = (if s then (decide ((n - 1).toNat = (m - 1).toNat) || k.getRelayState m)
            else (!decide ((n - 1).toNat = (m - 1).toNat) && k.getRelayState m)) := by
    intro m hm1 hm8
    have hj : (m - 1).toNat < 8 := by omega
    rw [getRelayState_in_range _ m hm1 hm8, getRelayState_in_range _ m hm1 hm8]
    unfold KCLinkPRO.setRelay
    rw [if_neg hn]
    cases s
    · exact bitRead_bitClear _ _ _ hj
    · exact bitRead_bitSet _ _ _ hj
  refine ⟨?_, ?_, ?_⟩
  · unfold KCLinkPRO.setRelay
    rw [if_neg hn]
    cases s <;> rfl
  · rw [hread n h1 h8]
    cases s <;> simp
  · intro m hm1 hm8 hne
    rw [hread m hm1 hm8]
    have hidx : (n - 1).toNat ≠ (m - 1).toNat := by omega
    rw [decide_eq_false hidx]
    cases s <;> rfl

/-- Instance of C2: switching relay 3 on in a fresh controller makes relay 3
read on and leaves relay 4 as it was. -/
theorem setRelay_then_getRelayState_witness :
    (KCLinkPRO.new.setRelay 3 true).1 = true ∧
    (KCLinkPRO.new.setRelay 3 true).2.1.getRelayState 3 = true ∧
    (KCLinkPRO.new.setRelay 3 true).2.1.getRelayState 4 = KCLinkPRO.new.getRelayState 4 :=
  have h := setRelay_then_getRelayState KCLinkPRO.new 3 true (by decide) (by decide)
  ⟨h.1, h.2.1, h.2.2 4 (by decide) (by decide) (by decide)⟩

/-- C3: for every mask and every prior state, setAllRelays(mask) returns true
and afterwards getRelayState(n) is bit n-1 of the mask for every n in 1..8;
after setAllRelays(0b10100001) exactly relays 1, 6 and 8 read on. -/
theorem setAllRelays_then_getRelayState (k : KCLinkPRO) (mask : Nat) :
    (k.setAllRelays mask).1 = true ∧
    (∀ n : Int, 1 ≤ n → n ≤ 8 →
      (k.setAllRelays mask).2.1.getRelayState n = mask.testBit (n - 1).toNat) ∧
    (∀ n : Int,
      (k.setAllRelays 0b10100001).2.1.getRelayState n = decide (n = 1 ∨ n = 6 ∨ n = 8)) := by
  refine ⟨rfl, ?_, ?_⟩
  · intro n h1 h8
    have hj : (n - 1).toNat < 8 := by omega
    rw [getRelayState_in_range _ n h1 h8]
    show bitRead (mask % 256) (n - 1).toNat = _
    rw [bitRead_mod _ _ hj, bitRead_eq_testBit]
  · intro n
    by_cases hr : n < 1 ∨ n > 8
    · have hne : ¬ (n = 1 ∨ n = 6 ∨ n = 8) := by omega
      simp [KCLinkPRO.getRelayState, hr, hne]
    · have h1 : 1 ≤ n := by omega
      have h8 : n ≤ 8 := by omega
      rw [getRelayState_in_range _ n h1 h8]
      show bitRead (0b10100001 % 256) (n - 1).toNat = _
      interval_cases n <;> decide

/-- Instance of C3: after setAllRelays(0b10100001) on a fresh controller,
relay 6 reads bit 5 of the mask. -/
theorem setAllRelays_then_getRelayState_witness :
    (KCLinkPRO.new.setAllRelays 0b10100001).2.1.getRelayState 6
      = Nat.testBit 0b10100001 (6 - 1 : Int).toNat :=
  (setAllRelays_then_getRelayState KCLinkPRO.new 0b10100001).2.1 6 (by decide) (by decide)

/-! ## Input edge dispatch -/

/-- The callback invocations issued by the bit-scan loop of
`checkInputChanges` over the indices in `l`. -/
theorem inputFirings_scan (fn c s : Nat) (l : List Nat) (ev : List Event) :
    inputFirings (l.foldl (fun acc i =>
        if bitRead c i ≠ bitRead s i then
          acc ++ [Event.inputChangeCallback fn ((i : Int) + 1) (bitRead c i)]
        else acc) ev)
      = inputFirings ev ++
        (l.filter (fun i => c.testBit i != s.testBit i)).map
          (fun (i : Nat) => (fn, (i : Int) + 1, c.testBit i)) := by
  induction l generalizing ev with
  | nil => simp
  | cons i l ih =>
    rw [List.foldl_cons, ih]
    by_cases h : bitRead c i = bitRead s i
    · have h2 : ¬ (c.testBit i != s.testBit i) = true := by
        rw [← bitRead_eq_testBit, ← bitRead_eq_testBit, h]; simp
      rw [if_neg (not_not.mpr h), List.filter_cons, if_neg h2]
    · have h2 : (c.testBit i != s.testBit i) = true := by
        rw [← bitRead_eq_testBit, ← bitRead_eq_testBit]; simpa using h
      rw [if_pos h, List.filter_cons, if_pos h2, List.map_cons, bitRead_eq_testBit]
      simp [inputFirings, List.filterMap_append]

/-- C4: with a callback registered, one checkInputChanges() call invokes the
callback exactly for the bit positions i in 0..7 where the live reading c and
the stored snapshot s differ, once each in ascending order of i, with
arguments (i+1, bit i of c), and leaves the snapshot equal to c; for
s = 0x00 and c = 0x03 the invocations are (1, true) then (2, true). -/
theorem checkInputChanges_dispatch (k : KCLinkPRO) (hw : Hardware) (fn : Nat)
    (hcb : k._inputChangeCallback = some fn) (hc : hw.read8 < 256) :
    inputFirings (k.checkInputChanges hw).2
      = ((List.range 8).filter
          (fun i => hw.read8.testBit i != k._lastInputState.testBit i)).map
          (fun (i : Nat) => (fn, (i : Int) + 1, hw.read8.testBit i)) ∧
    ((inputFirings (k.checkInputChanges hw).2).map (fun f => f.2.1)).Pairwise (· < ·) ∧
    (k.checkInputChanges hw).1._lastInputState = hw.read8 ∧
    (k._lastInputState = 0x00 → hw.read8 = 0x03 →
      inputFirings (k.checkInputChanges hw).2 = [(fn, 1, true), (fn, 2, true)]) := by
  have hmod : hw.read8 % 256 = hw.read8 := Nat.mod_eq_of_lt hc
  have hfire : inputFirings (k.checkInputChanges hw).2
      = ((List.range 8).filter
          (fun i => hw.read8.testBit i != k._lastInputState.testBit i)).map
          (fun (i : Nat) => (fn, (i : Int) + 1, hw.read8.testBit i)) := by
    unfold KCLinkPRO.checkInputChanges
    rw [hcb, hmod]
    by_cases hne : hw.read8 = k._lastInputState
    · simp [hne, inputFirings]
    · simp only [ne_eq, hne, not_false_eq_true, if_true, forLoop]
      rw [inputFirings_scan]
      simp [inputFirings]
  have hsnap : (k.checkInputChanges hw).1._lastInputState = hw.read8 := by
    unfold KCLinkPRO.checkInputChanges
    rw [hcb, hmod]
    by_cases hne : hw.read8 = k._lastInputState
    · simp [hne]
    · simp [hne]
  refine ⟨hfire, ?_, hsnap, ?_⟩
  · rw [hfire, List.map_map]
    have hrange : (List.range 8).Pairwise (· < ·) := List.pairwise_lt_range 8
    have hfilt := hrange.filter (fun i => hw.read8.testBit i != k._lastInputState.testBit i)
    rw [List.pairwise_map]
    refine hfilt.imp ?_
    intro a b hab
    simpa using hab
  · intro hs hr
    rw [hfire, hs, hr]
    rfl

/-- Instance of C4: a fresh controller with callback 7 registered that reads
0x03 from the input expander fires (1, true) then (2, true) and stores 0x03. -/
theorem checkInputChanges_dispatch_witness :
    inputFirings
        ((KCLinkPRO.new.onInputChange (some 7)).checkInputChanges
          { Hardware.idle with read8 := 0x03 }).2
      = [(7, 1, true), (7, 2, true)] ∧
    ((KCLinkPRO.new.onInputChange (some 7)).checkInputChanges
        { Hardware.idle with read8 := 0x03 }).1._lastInputState = 0x03 :=
  have h := checkInputChanges_dispatch (KCLinkPRO.new.onInputChange (some 7))
    { Hardware.idle with read8 := 0x03 } 7 rfl (by decide)
  ⟨h.2.2.2 rfl rfl, h.2.2.1⟩

/-- C6: with no input-change callback registered, checkInputChanges() issues
no event at all (no callback, no read) and returns the controller state
unchanged, whatever the input expander would read; so does any number of
successive polls. -/
theorem checkInputChanges_without_callback (k : KCLinkPRO)
    (hcb : k._inputChangeCallback = none) :
    (∀ hw : Hardware, k.checkInputChanges hw = (k, [])) ∧
    (∀ hws : List Hardware, k.pollInputs hws = (k, [])) := by
  have h1 : ∀ hw : Hardware, k.checkInputChanges hw = (k, []) := by
    intro hw
    unfold KCLinkPRO.checkInputChanges
    rw [hcb]
  refine ⟨h1, ?_⟩
  intro hws
  induction hws with
  | nil => rfl
  | cons hw hws ih =>
    unfold KCLinkPRO.pollInputs
    simp only [h1 hw, ih, List.append_nil]

/-- Instance of C6: three polls of a fresh controller, with the inputs reading
0x03, 0xFF and 0x00, leave it as constructed and issue no event. -/
theorem checkInputChanges_without_callback_witness :
    KCLinkPRO.new.pollInputs
        [{ Hardware.idle with read8 := 0x03 }, { Hardware.idle with read8 := 0xFF },
          Hardware.idle]
      = (KCLinkPRO.new, []) :=
  (checkInputChanges_without_callback KCLinkPRO.new rfl).2 _

/-! ## Analog scaling -/

theorem getAnalogVoltage_eq (k : KCLinkPRO) (hw : Hardware) (n : Int) :
    ∃ ev : List Event, k.getAnalogVoltage hw n = (observedVoltage hw n, k, ev) ∧
      ∀ m : Int, thresholdFirings m ev = [] := by
  unfold observedVoltage KCLinkPRO.getAnalogVoltage KCLinkPRO.getAnalogInput
  by_cases hr : n < 1 ∨ n > 2
  · exact ⟨[], by simp [hr], fun m => rfl⟩
  · refine ⟨[Event.analogRead (if n = 1 then ANALOG_INPUT_1 else ANALOG_INPUT_2)], ?_,
      fun m => rfl⟩
    simp only [hr, if_false]
    split_ifs <;> rfl

/-- C7: for a channel n in 1..2 and a raw ADC code r in 0..4095,
getAnalogVoltage(n) is r * 5 / 4095 in exact rational arithmetic and lies in
[0, 5]; it is strictly increasing in r, 0 at r = 0 and 5 at r = 4095. -/
theorem getAnalogVoltage_scaling (k : KCLinkPRO) (n : Int) (h1 : 1 ≤ n) (h2 : n ≤ 2) :
    (∀ hw : Hardware, 0 ≤ hw.analogRead (analogPin n) → hw.analogRead (analogPin n) ≤ 4095 →
      (k.getAnalogVoltage hw n).1 = (hw.analogRead (analogPin n) : ℚ) * 5 / 4095 ∧
      0 ≤ (k.getAnalogVoltage hw n).1 ∧ (k.getAnalogVoltage hw n).1 ≤ 5) ∧
    (∀ hw hw' : Hardware, 0 ≤ hw.analogRead (analogPin n) →
      hw.analogRead (analogPin n) < hw'.analogRead (analogPin n) →
      hw'.analogRead (analogPin n) ≤ 4095 →
      (k.getAnalogVoltage hw n).1 < (k.getAnalogVoltage hw' n).1) ∧
    (∀ hw : Hardware, hw.analogRead (analogPin n) = 0 → (k.getAnalogVoltage hw n).1 = 0) ∧
    (∀ hw : Hardware, hw.analogRead (analogPin n) = 4095 →
      (k.getAnalogVoltage hw n).1 = 5) := by
  have hr : ¬ (n < 1 ∨ n > 2) := by omega
  have hval : ∀ hw : Hardware, 0 ≤ hw.analogRead (analogPin n) →
      (k.getAnalogVoltage hw n).1 = (hw.analogRead (analogPin n) : ℚ) * 5 / 4095 := by
    intro hw h0
    unfold KCLinkPRO.getAnalogVoltage KCLinkPRO.getAnalogInput
    simp only [hr, if_false]
    rw [if_neg (by unfold analogPin at h0; omega)]
    rfl
  refine ⟨fun hw h0 h4 => ⟨hval hw h0, ?_, ?_⟩, fun hw hw' h0 hlt h4 => ?_,
    fun hw h0 => ?_, fun hw h4 => ?_⟩
  · rw [hval hw h0]
    have : (0 : ℚ) ≤ (hw.analogRead (analogPin n) : ℚ) := by exact_mod_cast h0
    positivity
  · rw [hval hw h0]
    have : (hw.analogRead (analogPin n) : ℚ) ≤ 4095 := by exact_mod_cast h4
    rw [div_le_iff₀ (by norm_num)]
    linarith
  · rw [hval hw h0, hval hw' (by omega)]
    have : (hw.analogRead (analogPin n) : ℚ) < (hw'.analogRead (analogPin n) : ℚ) := by
      exact_mod_cast hlt
    rw [div_lt_div_iff_of_pos_right (by norm_num)]
    linarith
  · rw [hval hw (by omega), h0]
    norm_num
  · rw [hval hw (by omega), h4]
    norm_num

/-- Instance of C7: on channel 1 a full-scale code 4095 reads 5 V and exceeds
the reading for code 1638. -/
theorem getAnalogVoltage_scaling_witness :
    (KCLinkPRO.new.getAnalogVoltage { Hardware.idle with analogRead := fun _ => 4095 } 1).1 = 5 ∧
    (KCLinkPRO.new.getAnalogVoltage { Hardware.idle with analogRead := fun _ => 1638 } 1).1
      < (KCLinkPRO.new.getAnalogVoltage
          { Hardware.idle with analogRead := fun _ => 4095 } 1).1 :=
  have h := getAnalogVoltage_scaling KCLinkPRO.new 1 (by decide) (by decide)
  ⟨h.2.2.2 { Hardware.idle with analogRead := fun _ => 4095 } rfl,
   h.2.1 { Hardware.idle with analogRead := fun _ => 1638 }
      { Hardware.idle with analogRead := fun _ => 4095 }
      (by decide) (by decide) (by decide)⟩

/-! ## Analog threshold latch -/

theorem checkAnalogThresholdsBody_none (hw : Hardware) (i : Nat) (s : KCLinkPRO × List Event)
    (h : s.1._analogCallbacks i = none) :
    KCLinkPRO.checkAnalogThresholdsBody hw i s = s := by
  unfold KCLinkPRO.checkAnalogThresholdsBody
  rw [h]

theorem thresholdFirings_append (m : Int) (a b : List Event) :
    thresholdFirings m (a ++ b) = thresholdFirings m a ++ thresholdFirings m b := by
  unfold thresholdFirings
  rw [List.filterMap_append]

theorem checkAnalogThresholdsBody_some (hw : Hardware) (i : Nat) (s : KCLinkPRO × List Event)
    (fn : Nat) (h : s.1._analogCallbacks i = some fn) :
    (KCLinkPRO.checkAnalogThresholdsBody hw i s).1._analogCallbacks = s.1._analogCallbacks ∧
    (KCLinkPRO.checkAnalogThresholdsBody hw i s).1._analogThresholds
      = s.1._analogThresholds ∧
    (KCLinkPRO.checkAnalogThresholdsBody hw i s).1._analogThresholdExceeded
      = Function.update s.1._analogThresholdExceeded i
          (decide (observedVoltage hw ((i : Int) + 1) ≥ s.1._analogThresholds i)) ∧
    ∀ m : Int, thresholdFirings m (KCLinkPRO.checkAnalogThresholdsBody hw i s).2
      = thresholdFirings m s.2 ++
        (if m = (i : Int) + 1 then
          expectedFirings fn
            (decide (observedVoltage hw ((i : Int) + 1) ≥ s.1._analogThresholds i)
              != s.1._analogThresholdExceeded i)
            (observedVoltage hw ((i : Int) + 1))
        else []) := by
  obtain ⟨ev, hv, hev⟩ := getAnalogVoltage_eq s.1 hw ((i : Int) + 1)
  unfold KCLinkPRO.checkAnalogThresholdsBody
  rw [h]
  simp only [hv]
  by_cases hx : decide (observedVoltage hw ((i : Int) + 1) ≥ s.1._analogThresholds i)
      = s.1._analogThresholdExceeded i
  · rw [if_neg (not_not.mpr hx)]
    refine ⟨rfl, rfl, ?_, ?_⟩
    · rw [hx, Function.update_eq_self]
    · intro m
      rw [thresholdFirings_append, hev, hx]
      simp [expectedFirings]
  · rw [if_pos hx]
    refine ⟨rfl, rfl, rfl, ?_⟩
    intro m
    have hb : (decide (observedVoltage hw ((i : Int) + 1) ≥ s.1._analogThresholds i)
        != s.1._analogThresholdExceeded i) = true := by simpa using hx
    rw [thresholdFirings_append, thresholdFirings_append, hev, hb]
    by_cases hm : m = (i : Int) + 1
    · simp [expectedFirings, thresholdFirings, hm]
    · have hm' : ¬ ((i : Int) + 1 = m) := fun e => hm e.symm
      simp [thresholdFirings, hm, hm']

theorem checkAnalogThresholdsBody_frame (hw : Hardware) (i : Nat) (s : KCLinkPRO × List Event) :
    (KCLinkPRO.checkAnalogThresholdsBody hw i s).1._analogCallbacks = s.1._analogCallbacks ∧
    (KCLinkPRO.checkAnalogThresholdsBody hw i s).1._analogThresholds
      = s.1._analogThresholds ∧
    (∀ j : Nat, j ≠ i →
      (KCLinkPRO.checkAnalogThresholdsBody hw i s).1._analogThresholdExceeded j
        = s.1._analogThresholdExceeded j) ∧
    (∀ m : Int, m ≠ (i : Int) + 1 →
      thresholdFirings m (KCLinkPRO.checkAnalogThresholdsBody hw i s).2
        = thresholdFirings m s.2) := by
  cases hcb : s.1._analogCallbacks i with
  | none =>
    rw [checkAnalogThresholdsBody_none hw i s hcb]
    exact ⟨rfl, rfl, fun _ _ => rfl, fun _ _ => rfl⟩
  | some fn =>
    obtain ⟨h1, h2, h3, h4⟩ := checkAnalogThresholdsBody_some hw i s fn hcb
    refine ⟨h1, h2, ?_, ?_⟩
    · intro j hj
      rw [h3, Function.update_noteq hj]
    · intro m hm
      rw [h4 m, if_neg hm, List.append_nil]

theorem checkAnalogThresholds_unfold (k : KCLinkPRO) (hw : Hardware) :
    k.checkAnalogThresholds hw
      = KCLinkPRO.checkAnalogThresholdsBody hw 1
          (KCLinkPRO.checkAnalogThresholdsBody hw 0 (k, [])) := rfl

/-- One poll, seen from a channel `c` that has a callback: the configuration
is kept, the latch takes the comparison result and the callback fires exactly
when that result differs from the latch. -/
theorem checkAnalogThresholds_channel (k : KCLinkPRO) (hw : Hardware) (c : Nat) (hc : c < 2)
    (fn : Nat) (h : k._analogCallbacks c = some fn) :
    (k.checkAnalogThresholds hw).1._analogCallbacks c = some fn ∧
    (k.checkAnalogThresholds hw).1._analogThresholds c = k._analogThresholds c ∧
    (k.checkAnalogThresholds hw).1._analogThresholdExceeded c
      = decide (observedVoltage hw ((c : Int) + 1) ≥ k._analogThresholds c) ∧
    thresholdFirings ((c : Int) + 1) (k.checkAnalogThresholds hw).2
      = expectedFirings fn
          (decide (observedVoltage hw ((c : Int) + 1) ≥ k._analogThresholds c)
            != k._analogThresholdExceeded c)
          (observedVoltage hw ((c : Int) + 1)) := by
  rw [checkAnalogThresholds_unfold]
  have hcases : c = 0 ∨ c = 1 := by omega
  rcases hcases with rfl | rfl
  · obtain ⟨a1, a2, a3, a4⟩ := checkAnalogThresholdsBody_some hw 0 (k, []) fn h
    obtain ⟨b1, b2, b3, b4⟩ := checkAnalogThresholdsBody_frame hw 1
      (KCLinkPRO.checkAnalogThresholdsBody hw 0 (k, []))
    refine ⟨?_, ?_, ?_, ?_⟩
    · rw [b1, a1]; exact h
    · rw [b2, a2]
    · rw [b3 0 (by decide), a3, Function.update_same]
    · rw [b4 _ (by decide), a4, if_pos rfl]
      rfl
  · obtain ⟨a1, a2, a3, a4⟩ := checkAnalogThresholdsBody_frame hw 0 (k, [])
    have h' : (KCLinkPRO.checkAnalogThresholdsBody hw 0 (k, [])).1._analogCallbacks 1
        = some fn := by rw [a1]; exact h
    obtain ⟨b1, b2, b3, b4⟩ := checkAnalogThresholdsBody_some hw 1
      (KCLinkPRO.checkAnalogThresholdsBody hw 0 (k, [])) fn h'
    refine ⟨?_, ?_, ?_, ?_⟩
    · rw [b1, a1]; exact h
    · rw [b2, a2]
    · rw [b3, Function.update_same, a2]
    · rw [b4, if_pos rfl, a4 _ (by decide), a2, a3 1 (by decide)]
      rfl

/-- Successive polls, seen from a channel `c` that has a callback, threshold
`t` and latch `prev`: the firings of each poll are those of the flags. -/
theorem pollAnalog_channel (c : Nat) (hc : c < 2) (fn : Nat) (t : ℚ) (hws : List Hardware) :
    ∀ (k : KCLinkPRO) (prev : Bool), k._analogCallbacks c = some fn →
      k._analogThresholds c = t → k._analogThresholdExceeded c = prev →
      (k.pollAnalog hws).2.map (thresholdFirings ((c : Int) + 1))
        = List.zipWith (expectedFirings fn)
            (crossingFlags t prev (hws.map (fun hw => observedVoltage hw ((c : Int) + 1))))
            (hws.map (fun hw => observedVoltage hw ((c : Int) + 1))) := by
  induction hws with
  | nil => intro k prev _ _ _; rfl
  | cons hw hws ih =>
    intro k prev hcb ht hp
    obtain ⟨p1, p2, p3, p4⟩ := checkAnalogThresholds_channel k hw c hc fn hcb
    unfold KCLinkPRO.pollAnalog
    simp only [List.map_cons, crossingFlags, List.zipWith_cons_cons]
    rw [ih (k.checkAnalogThresholds hw).1 _ p1 (p2.trans ht) (p3.trans (by rw [ht])),
      p4, ht, hp]

/-- The flag of poll `j` compares the voltage of poll `j` with that of poll
`j - 1`, or with `prev` for the first poll. -/
theorem crossingFlags_get (t : ℚ) (vs : List ℚ) :
    ∀ (prev : Bool) (j : Nat), j < vs.length →
      (crossingFlags t prev vs).getD j false
        = (decide (vs.getD j 0 ≥ t)
            != (if j = 0 then prev else decide (vs.getD (j - 1) 0 ≥ t))) := by
  induction vs with
  | nil => intro prev j hj; simp at hj
  | cons v vs ih =>
    intro prev j hj
    cases j with
    | zero => simp [crossingFlags]
    | succ j =>
      have hj' : j < vs.length := by simpa using hj
      rw [crossingFlags, List.getD_cons_succ, ih _ j hj']
      cases j with
      | zero => simp
      | succ j => simp

theorem crossingFlags_length (t : ℚ) (vs : List ℚ) :
    ∀ prev : Bool, (crossingFlags t prev vs).length = vs.length := by
  induction vs with
  | nil => intro prev; rfl
  | cons v vs ih => intro prev; simp [crossingFlags, ih]

theorem zipWith_expectedFirings_getD (fn : Nat) (flags : List Bool) :
    ∀ (vs : List ℚ) (j : Nat), j < vs.length → flags.length = vs.length →
      (List.zipWith (expectedFirings fn) flags vs).getD j []
        = expectedFirings fn (flags.getD j false) (vs.getD j 0) := by
  induction flags with
  | nil => intro vs j hj hl; simp at hl; rw [← hl] at hj; simp at hj
  | cons b flags ih =>
    intro vs j hj hl
    cases vs with
    | nil => simp at hl
    | cons v vs =>
      cases j with
      | zero => simp
      | succ j =>
        have hj' : j < vs.length := by simpa using hj
        have hl' : flags.length = vs.length := by simpa using hl
        simpa using ih vs j hj' hl'

theorem zipWith_expectedFirings_count (fn : Nat) (flags : List Bool) :
    ∀ vs : List ℚ, flags.length = vs.length →
      ((List.zipWith (expectedFirings fn) flags vs).map List.length).sum
        = flags.count true := by
  induction flags with
  | nil => intro vs _; simp
  | cons b flags ih =>
    intro vs hl
    cases vs with
    | nil => simp at hl
    | cons v vs =>
      have hl' : flags.length = vs.length := by simpa using hl
      cases b
      · simp [expectedFirings, ih vs hl']
      · simp [expectedFirings, ih vs hl', Nat.add_comm]

theorem count_true_eq_countP_range (l : List Bool) :
    l.count true = (List.range l.length).countP (fun j => l.getD j false) := by
  induction l with
  | nil => simp
  | cons b l ih =>
    rw [List.length_cons, List.range_succ_eq_map, List.countP_cons, List.countP_map,
      List.count_cons, ih]
    have hshift : ((fun j => (b :: l).getD j false) ∘ Nat.succ)
        = (fun j => l.getD j false) := by
      funext j
      simp
    rw [hshift]
    cases b <;> simp

theorem observedVoltage_adc (r n : Int) (h0 : 0 ≤ r) (h1 : 1 ≤ n) (h2 : n ≤ 2) :
    observedVoltage (Hardware.adc r) n = (r : ℚ) * 5 / 4095 := by
  have hr : ¬ (n < 1 ∨ n > 2) := by omega
  unfold observedVoltage KCLinkPRO.getAnalogVoltage KCLinkPRO.getAnalogInput
  simp only [hr, if_false]
  rw [if_neg (by show ¬ (r < 0); omega)]
  rfl

/-- C5: after setAnalogThreshold(n, t, cb) with n in 1..2 and cb not null, over
any sequence of checkAnalogThresholds() polls the callback of channel n fires
on poll j exactly when (v_j ≥ t) differs from (v_{j-1} ≥ t), counting the
state before the first poll as not exceeded, and then once with (n, v_j); the
number of firings is the number of such crossings; with t = 2.5 the voltages
2.0, 3.0, 3.0, 2.0 (raw codes 1638, 2457, 2457, 1638) fire on the second and
fourth poll only.  Polls are indexed from 0. -/
theorem analog_threshold_latch (k : KCLinkPRO) (n : Int) (h1 : 1 ≤ n) (h2 : n ≤ 2)
    (t : ℚ) (fn : Nat) (hws : List Hardware) :
    (∀ j : Nat, j < hws.length →
      (((k.setAnalogThreshold n t (some fn)).pollAnalog hws).2.map (thresholdFirings n)).getD
          j []
        = if isCrossing t (observedVoltages n hws) j = true
          then [(fn, (observedVoltages n hws).getD j 0)] else []) ∧
    ((((k.setAnalogThreshold n t (some fn)).pollAnalog hws).2.map
        (fun ev => (thresholdFirings n ev).length)).sum
      = (List.range hws.length).countP (isCrossing t (observedVoltages n hws))) ∧
    (((k.setAnalogThreshold n (5 / 2) (some fn)).pollAnalog
        [Hardware.adc 1638, Hardware.adc 2457, Hardware.adc 2457, Hardware.adc 1638]).2.map
        (thresholdFirings n)
      = [[], [(fn, 3)], [], [(fn, 2)]]) := by
  have hr : ¬ (n < 1 ∨ n > 2) := by omega
  have hn : ((((n - 1).toNat : Nat) : Int) + 1) = n := by omega
  have hc : (n - 1).toNat < 2 := by omega
  have hmain : ∀ (t : ℚ) (hws : List Hardware),
      ((k.setAnalogThreshold n t (some fn)).pollAnalog hws).2.map (thresholdFirings n)
        = List.zipWith (expectedFirings fn)
            (crossingFlags t false (observedVoltages n hws)) (observedVoltages n hws) := by
    intro t hws
    have h := pollAnalog_channel (n - 1).toNat hc fn t hws
      (k.setAnalogThreshold n t (some fn)) false
      (by unfold KCLinkPRO.setAnalogThreshold; rw [if_neg hr]; simp)
      (by unfold KCLinkPRO.setAnalogThreshold; rw [if_neg hr]; simp)
      (by unfold KCLinkPRO.setAnalogThreshold; rw [if_neg hr]; simp)
    rw [hn] at h
    exact h
  have hlen : (observedVoltages n hws).length = hws.length := by
    simp [observedVoltages]
  refine ⟨?_, ?_, ?_⟩
  · intro j hj
    have hj' : j < (observedVoltages n hws).length := by rw [hlen]; exact hj
    rw [hmain, zipWith_expectedFirings_getD fn _ _ j hj' (crossingFlags_length _ _ _),
      crossingFlags_get t _ false j hj']
    rfl
  · have hsum := zipWith_expectedFirings_count fn
      (crossingFlags t false (observedVoltages n hws)) (observedVoltages n hws)
      (crossingFlags_length _ _ _)
    rw [← hmain, List.map_map] at hsum
    rw [count_true_eq_countP_range, crossingFlags_length, hlen] at hsum
    rw [show (fun ev => (thresholdFirings n ev).length) = List.length ∘ thresholdFirings n
      from rfl, hsum]
    apply List.countP_congr
    intro j hj
    have hj' : j < (observedVoltages n hws).length := by
      rw [hlen]; exact List.mem_range.mp hj
    rw [crossingFlags_get t _ false j hj']
    rfl
  · rw [hmain]
    have e1 : observedVoltage (Hardware.adc 1638) n = 2 := by
      rw [observedVoltage_adc 1638 n (by decide) h1 h2]; norm_num
    have e2 : observedVoltage (Hardware.adc 2457) n = 3 := by
      rw [observedVoltage_adc 2457 n (by decide) h1 h2]; norm_num
    simp only [observedVoltages, List.map_cons, List.map_nil, e1, e2, crossingFlags]
    norm_num [expectedFirings]

/-- Instance of C5 on channel 1 of a fresh controller with callback 7 and
threshold 2.5, polled with the voltages 2.0, 3.0, 3.0, 2.0: the firing of the
second poll is decided by whether it is a crossing, and the four polls fire
nothing, (7, 3.0), nothing, (7, 2.0). -/
theorem analog_threshold_latch_witness :
    ((((KCLinkPRO.new.setAnalogThreshold 1 (5 / 2) (some 7)).pollAnalog
        [Hardware.adc 1638, Hardware.adc 2457, Hardware.adc 2457, Hardware.adc 1638]).2.map
        (thresholdFirings 1)).getD 1 []
      = if isCrossing (5 / 2) (observedVoltages 1
            [Hardware.adc 1638, Hardware.adc 2457, Hardware.adc 2457, Hardware.adc 1638]) 1
          = true
        then [(7, (observedVoltages 1
                [Hardware.adc 1638, Hardware.adc 2457, Hardware.adc 2457,
                  Hardware.adc 1638]).getD 1 0)]
        else []) ∧
    ((KCLinkPRO.new.setAnalogThreshold 1 (5 / 2) (some 7)).pollAnalog
        [Hardware.adc 1638, Hardware.adc 2457, Hardware.adc 2457, Hardware.adc 1638]).2.map
        (thresholdFirings 1)
      = [[], [(7, 3)], [], [(7, 2)]] :=
  have h := analog_threshold_latch KCLinkPRO.new 1 (by decide) (by decide) (5 / 2) 7
    [Hardware.adc 1638, Hardware.adc 2457, Hardware.adc 2457, Hardware.adc 1638]
  ⟨h.1 1 (by decide), h.2.2⟩

/-! ## Sensor slots -/

theorem beginDht_sensorTypes (k : KCLinkPRO) (index : Nat) (pin : Int) (kind : DhtKind) :
    (k.beginDht index pin kind).2.1._sensorTypes = k._sensorTypes := rfl

/-- A `beginTemperatureSensor` call leaves the type tag of every other slot
alone. -/
theorem beginTemperatureSensor_sensorTypes_other (k : KCLinkPRO) (n : Int) (ty : SensorType)
    (j : Nat) (hj : n < 1 ∨ 4 < n ∨ j ≠ (n - 1).toNat) :
    (k.beginTemperatureSensor n ty).2.1._sensorTypes j = k._sensorTypes j := by
  unfold KCLinkPRO.beginTemperatureSensor
  by_cases hr : n < 1 ∨ n > 4
  · rw [if_pos hr]
  · rw [if_neg hr]
    have hne : j ≠ (n - 1).toNat := by omega
    by_cases hp : KCLinkPRO.getPinForSensor n < 0
    · simp only [hp, if_true]
    · simp only [hp, if_false]
      generalize (n - 1).toNat = idx at hne
      cases ty <;> simp [beginDht_sensorTypes, Function.update_noteq hne]

/-- Configuring a slot in range with `SENSOR_NONE` stores `SENSOR_NONE`. -/
theorem beginTemperatureSensor_none (k : KCLinkPRO) (n : Int) (h1 : 1 ≤ n) (h4 : n ≤ 4) :
    (k.beginTemperatureSensor n SensorType.SENSOR_NONE).2.1._sensorTypes (n - 1).toNat
      = SensorType.SENSOR_NONE := by
  have hr : ¬ (n < 1 ∨ n > 4) := by omega
  have hp : ¬ (KCLinkPRO.getPinForSensor n < 0) := by
    unfold KCLinkPRO.getPinForSensor
    have : n = 1 ∨ n = 2 ∨ n = 3 ∨ n = 4 := by omega
    rcases this with rfl | rfl | rfl | rfl <;> decide
  unfold KCLinkPRO.beginTemperatureSensor
  simp [hr, hp]

theorem beginSensors_append (calls : List (Int × SensorType)) (c : Int × SensorType) :
    ∀ k : KCLinkPRO, k.beginSensors (calls ++ [c])
      = ((k.beginSensors calls).beginTemperatureSensor c.1 c.2).2.1 := by
  induction calls with
  | nil => intro k; rfl
  | cons d calls ih =>
    intro k
    show KCLinkPRO.beginSensors _ (calls ++ [c]) = _
    rw [ih]
    rfl

theorem beginSensors_untouched (slot : Int) (h1 : 1 ≤ slot) (h4 : slot ≤ 4)
    (calls : List (Int × SensorType)) :
    ∀ k : KCLinkPRO, (∀ c ∈ calls, c.1 ≠ slot) →
      (k.beginSensors calls)._sensorTypes (slot - 1).toNat
        = k._sensorTypes (slot - 1).toNat := by
  induction calls with
  | nil => intro k _; rfl
  | cons d calls ih =>
    intro k hall
    show (KCLinkPRO.beginSensors _ calls)._sensorTypes _ = _
    rw [ih _ (fun c hc => hall c (List.mem_cons_of_mem _ hc))]
    have hd : d.1 ≠ slot := hall d (List.mem_cons_self _ _)
    exact beginTemperatureSensor_sensorTypes_other k d.1 d.2 _ (by omega)

/-- C8: for every slot in 1..4 and every sequence of beginTemperatureSensor
calls on a fresh controller, whenever the slot's stored type is SENSOR_NONE,
getTemperature and getHumidity return -999.0, leave the state alone and call no
driver; the stored type is SENSOR_NONE when no call named the slot and when
the last call configured the slot with SENSOR_NONE. -/
theorem unconfigured_slot_reads_sentinel (calls : List (Int × SensorType)) (slot : Int)
    (h1 : 1 ≤ slot) (h4 : slot ≤ 4) :
    (∀ hw : Hardware,
      (KCLinkPRO.new.beginSensors calls)._sensorTypes (slot - 1).toNat
          = SensorType.SENSOR_NONE →
        (KCLinkPRO.new.beginSensors calls).getTemperature hw slot
            = (-999, KCLinkPRO.new.beginSensors calls, []) ∧
        (KCLinkPRO.new.beginSensors calls).getHumidity hw slot
            = (-999, KCLinkPRO.new.beginSensors calls, [])) ∧
    ((∀ c ∈ calls, c.1 ≠ slot) →
      (KCLinkPRO.new.beginSensors calls)._sensorTypes (slot - 1).toNat
        = SensorType.SENSOR_NONE) ∧
    (KCLinkPRO.new.beginSensors (calls ++ [(slot, SensorType.SENSOR_NONE)]))._sensorTypes
        (slot - 1).toNat
      = SensorType.SENSOR_NONE := by
  have hr : ¬ (slot < 1 ∨ slot > 4) := by omega
  refine ⟨?_, ?_, ?_⟩
  · intro hw hnone
    constructor
    · unfold KCLinkPRO.getTemperature
      rw [if_neg hr]
      simp only [hnone, if_true]
    · unfold KCLinkPRO.getHumidity
      rw [if_neg hr]
      generalize (slot - 1).toNat = idx at hnone
      simp [hnone]
  · intro hall
    rw [beginSensors_untouched slot h1 h4 calls _ hall]
    rfl
  · rw [beginSensors_append]
    exact beginTemperatureSensor_none _ slot h1 h4

/-- Instance of C8: slot 2, configured as DS18B20, then as DHT22, then with
SENSOR_NONE, reads -999.0 for temperature and humidity with no driver call. -/
theorem unconfigured_slot_reads_sentinel_witness :
    (KCLinkPRO.new.beginSensors
        ([(2, SensorType.SENSOR_DS18B20), (2, SensorType.SENSOR_DHT22)]
          ++ [(2, SensorType.SENSOR_NONE)])).getTemperature Hardware.idle 2
      = (-999, KCLinkPRO.new.beginSensors
          ([(2, SensorType.SENSOR_DS18B20), (2, SensorType.SENSOR_DHT22)]
            ++ [(2, SensorType.SENSOR_NONE)]), []) ∧
    (KCLinkPRO.new.beginSensors
        ([(2, SensorType.SENSOR_DS18B20), (2, SensorType.SENSOR_DHT22)]
          ++ [(2, SensorType.SENSOR_NONE)])).getHumidity Hardware.idle 2
      = (-999, KCLinkPRO.new.beginSensors
          ([(2, SensorType.SENSOR_DS18B20), (2, SensorType.SENSOR_DHT22)]
            ++ [(2, SensorType.SENSOR_NONE)]), []) :=
  (unconfigured_slot_reads_sentinel
      ([(2, SensorType.SENSOR_DS18B20), (2, SensorType.SENSOR_DHT22)]
        ++ [(2, SensorType.SENSOR_NONE)]) 2 (by decide) (by decide)).1 Hardware.idle
    ((unconfigured_slot_reads_sentinel
      [(2, SensorType.SENSOR_DS18B20), (2, SensorType.SENSOR_DHT22)] 2
      (by decide) (by decide)).2.2)

/-- C10, evaluated on the code: configuring slot 1 as DS18B20 and then as
DHT11 leaves the one-wire object, the Dallas driver and the DHT driver of the
slot all non-null, and issues no `delete` for the first two; configuring it as
DS18B20 and then with SENSOR_NONE leaves a slot of type SENSOR_NONE that
still holds the one-wire object and the Dallas driver. -/
theorem beginTemperatureSensor_keeps_other_driver :
    ((KCLinkPRO.new.beginSensors
        [(1, SensorType.SENSOR_DS18B20), (1, SensorType.SENSOR_DHT11)])._oneWireObjects 0
      = some 14 ∧
     (KCLinkPRO.new.beginSensors
        [(1, SensorType.SENSOR_DS18B20), (1, SensorType.SENSOR_DHT11)])._dsTemperatureSensors 0
      = some 14 ∧
     (KCLinkPRO.new.beginSensors
        [(1, SensorType.SENSOR_DS18B20), (1, SensorType.SENSOR_DHT11)])._dhtSensors 0
      = some (14, DhtKind.DHT11) ∧
     ((KCLinkPRO.new.beginSensors [(1, SensorType.SENSOR_DS18B20)]).beginTemperatureSensor 1
        SensorType.SENSOR_DHT11).2.2
      = [Event.newDHT 14 DhtKind.DHT11, Event.dhtBegin 14]) ∧
    ((KCLinkPRO.new.beginSensors
        [(1, SensorType.SENSOR_DS18B20), (1, SensorType.SENSOR_NONE)])._sensorTypes 0
      = SensorType.SENSOR_NONE ∧
     (KCLinkPRO.new.beginSensors
        [(1, SensorType.SENSOR_DS18B20), (1, SensorType.SENSOR_NONE)])._oneWireObjects 0
      = some 14 ∧
     (KCLinkPRO.new.beginSensors
        [(1, SensorType.SENSOR_DS18B20), (1, SensorType.SENSOR_NONE)])._dsTemperatureSensors 0
      = some 14) := by
  decide

/-! ## Relay shadow and output latch -/

theorem lastRelayLevel_append (pin : Int) (a b : List Event) :
    lastRelayLevel pin (a ++ b)
      = b.foldl (fun acc e =>
          match e with
          | Event.relayDigitalWrite p l => if p = pin then some l else acc
          | _ => acc) (lastRelayLevel pin a) := by
  unfold lastRelayLevel
  rw [List.foldl_append]

theorem lastRelayLevel_append_write (pin p : Int) (l : Level) (ev : List Event) :
    lastRelayLevel pin (ev ++ [Event.relayDigitalWrite p l])
      = if p = pin then some l else lastRelayLevel pin ev := by
  rw [lastRelayLevel_append]
  rfl

/-- A succeeding `begin` writes HIGH to all eight relay pins and keeps the
shadow byte. -/
theorem begin_writes_high (k : KCLinkPRO) (hw : Hardware) (h1 : hw.relayBeginOk = true)
    (h2 : hw.inputBeginOk = true) (ev0 : List Event) (i : Nat) (hi : i < 8) :
    lastRelayLevel (i : Int) (ev0 ++ (k.begin hw).2.2) = some Level.HIGH ∧
    (k.begin hw).2.1._relayState = k._relayState := by
  unfold KCLinkPRO.begin
  simp only [h1, h2, Bool.not_true, Bool.false_eq_true, if_false]
  refine ⟨?_, trivial⟩
  rw [lastRelayLevel_append]
  interval_cases i <;> rfl

/-- The relay methods other than `begin` keep the mirror. -/
theorem relayCall_keeps_mirror (k : KCLinkPRO) (ev0 : List Event) (c : RelayCall)
    (hc : c.isBegin = false) (hm : RelayMirror k ev0) :
    RelayMirror (k.relayCall c).1 (ev0 ++ (k.relayCall c).2) := by
  have hset : ∀ (n : Int) (s : Bool),
      RelayMirror (k.setRelay n s).2.1 (ev0 ++ (k.setRelay n s).2.2) := by
    intro n s i hi
    unfold KCLinkPRO.setRelay
    by_cases hr : n < 1 ∨ n > 8
    · rw [if_pos hr]
      simpa using hm i hi
    · rw [if_neg hr]
      have hidx : (n - 1 = (i : Int)) ↔ ((n - 1).toNat = i) := by omega
      cases s
      · show lastRelayLevel (i : Int) (ev0 ++ [Event.relayDigitalWrite (n - 1) Level.HIGH])
          = some (if bitRead (bitClear k._relayState (n - 1).toNat) i
              then Level.LOW else Level.HIGH)
        rw [lastRelayLevel_append_write, bitRead_bitClear _ _ _ hi]
        by_cases he : n - 1 = (i : Int)
        · rw [if_pos he, decide_eq_true (hidx.mp he)]
          rfl
        · rw [if_neg he, decide_eq_false (fun h => he (hidx.mpr h)), hm i hi]
          rfl
      · show lastRelayLevel (i : Int) (ev0 ++ [Event.relayDigitalWrite (n - 1) Level.LOW])
          = some (if bitRead (bitSet k._relayState (n - 1).toNat) i
              then Level.LOW else Level.HIGH)
        rw [lastRelayLevel_append_write, bitRead_bitSet _ _ _ hi]
        by_cases he : n - 1 = (i : Int)
        · rw [if_pos he, decide_eq_true (hidx.mp he)]
          rfl
        · rw [if_neg he, decide_eq_false (fun h => he (hidx.mpr h)), hm i hi]
          rfl
  cases c with
  | begin hw => simp [RelayCall.isBegin] at hc
  | setRelay n s => exact hset n s
  | toggleRelay n =>
    show RelayMirror (k.toggleRelay n).2.1 (ev0 ++ (k.toggleRelay n).2.2)
    unfold KCLinkPRO.toggleRelay
    by_cases hr : n < 1 ∨ n > 8
    · rw [if_pos hr]
      intro i hi
      simpa using hm i hi
    · rw [if_neg hr]
      exact hset n _
  | setAllRelays m =>
    intro i hi
    show lastRelayLevel (i : Int) (ev0 ++ (k.setAllRelays m).2.2)
      = some (if bitRead (m % 256) i then Level.LOW else Level.HIGH)
    rw [lastRelayLevel_append]
    interval_cases i <;> rfl

theorem relayCalls_keep_mirror (calls : List RelayCall) :
    ∀ (k : KCLinkPRO) (ev0 : List Event), (∀ c ∈ calls, c.isBegin = false) →
      RelayMirror k ev0 →
      RelayMirror (k.relayCalls calls).1 (ev0 ++ (k.relayCalls calls).2) := by
  induction calls with
  | nil =>
    intro k ev0 _ hm
    simpa [KCLinkPRO.relayCalls] using hm
  | cons c calls ih =>
    intro k ev0 hno hm
    have hstep := relayCall_keeps_mirror k ev0 c (hno c (List.mem_cons_self _ _)) hm
    have hrest := ih (k.relayCall c).1 (ev0 ++ (k.relayCall c).2)
      (fun d hd => hno d (List.mem_cons_of_mem _ hd)) hstep
    unfold KCLinkPRO.relayCalls
    simpa [List.append_assoc] using hrest

/-- What does hold of the mirror: on a fresh controller, a succeeding begin
followed by any setRelay, toggleRelay and setAllRelays calls (no further
begin) leaves the level last written to each relay pin LOW exactly when the
shadow bit is set. -/
theorem relay_mirror_when_begin_comes_first (hw : Hardware) (h1 : hw.relayBeginOk = true)
    (h2 : hw.inputBeginOk = true) (calls : List RelayCall)
    (hno : ∀ c ∈ calls, c.isBegin = false) :
    RelayMirror (KCLinkPRO.new.relayCalls (RelayCall.begin hw :: calls)).1
      (KCLinkPRO.new.relayCalls (RelayCall.begin hw :: calls)).2 := by
  have hstart : RelayMirror (KCLinkPRO.new.relayCall (RelayCall.begin hw)).1
      ([] ++ (KCLinkPRO.new.relayCall (RelayCall.begin hw)).2) := by
    intro i hi
    obtain ⟨hlvl, hst⟩ := begin_writes_high KCLinkPRO.new hw h1 h2 [] i hi
    show lastRelayLevel (i : Int) ([] ++ (KCLinkPRO.new.begin hw).2.2)
      = some (if bitRead (KCLinkPRO.new.begin hw).2.1._relayState i
          then Level.LOW else Level.HIGH)
    rw [hlvl, hst]
    have hz : bitRead KCLinkPRO.new._relayState i = false := by
      rw [bitRead_eq_testBit]
      exact Nat.zero_testBit i
    rw [hz]
    rfl
  have hrest := relayCalls_keep_mirror calls _ _ hno hstart
  unfold KCLinkPRO.relayCalls
  simpa using hrest

/-- C9, evaluated on the code: begin, setRelay(1, true), begin on a fresh
controller, both begin calls succeeding.  The level last written to relay
pin 0 is HIGH (the second begin switched the relay off) while bit 0 of the
shadow byte is still set and getRelayState(1) is true. -/
theorem begin_leaves_shadow_stale :
    lastRelayLevel 0
        (KCLinkPRO.new.relayCalls
          [RelayCall.begin Hardware.idle, RelayCall.setRelay 1 true,
            RelayCall.begin Hardware.idle]).2
      = some Level.HIGH ∧
    (KCLinkPRO.new.relayCalls
        [RelayCall.begin Hardware.idle, RelayCall.setRelay 1 true,
          RelayCall.begin Hardware.idle]).1._relayState = 1 ∧
    (KCLinkPRO.new.relayCalls
        [RelayCall.begin Hardware.idle, RelayCall.setRelay 1 true,
          RelayCall.begin Hardware.idle]).1.getRelayState 1 = true := by
  decide

end KCLink
